import Mathlib

/-!
Shallow embedding of `src/Task 10/filters.py`: synthetic photometry of a
spectrum through filter response curves.

Modelling conventions:
* numpy / astropy arrays of physical quantities are `List ℚ` of their numeric
  values, all expressed in one common (SI) unit system, so that
  compatible-unit conversions performed by the external astropy units layer
  (`.to(...)` between compatible units) are the identity on the stored value.
  A produced quantity additionally carries its unit tag (`PhysUnit`).
* `np.log10` is a transcendental function, so the magnitude converter lives
  over `ℝ`; its IEEE-754 non-real results (`nan` for negative arguments,
  `-inf` at zero, and their propagation through `*`, `-`) are modelled
  explicitly by the codomain `NpReal`, since `ℝ` has no such elements.
* `scipy.integrate.simps` is an external collaborator (the spec's
  "composite quadrature rule for unevenly spaced samples, Simpson's-rule
  family"); `simpsons_rule_integration` models it with the standard
  unevenly-spaced composite Simpson rule: the classic three-point quadratic
  rule on successive pairs of intervals, a trapezoid on a final unpaired
  interval, and 0 on fewer than two points (scipy returns 0.0 on a
  one-point array; on an empty array it raises an IndexError, which the
  total model also sends to 0).
* `ℚ` is a field with junk total division (`x / 0 = 0`); the floating-point
  program instead produces `inf`/`nan` on division by zero.  Statements about
  ratios whose denominator vanishes are therefore made through the separate
  numerator/denominator values (`top`, `bottom`), never through the junk
  quotient alone.
-/

namespace Photometry

/-- Physical unit tags carried by produced quantities.  `jansky` is
`astropy.units.Jy` (spectral flux density per unit frequency); the other tag
stands for any other unit an input quantity may carry. -/
inductive PhysUnit
  | jansky
  | watt_per_m2_hz
  deriving DecidableEq

/-- An astropy `Quantity` scalar: a numeric value together with its unit tag.
Values are stored as the numeric magnitude in their tagged unit. -/
structure Quantity where
  value : ℚ
  unit : PhysUnit
  deriving DecidableEq

/-- The external `Spectrum` collaborator: parallel arrays of wavelengths and
per-wavelength flux densities (`spectrum.wavelengths`,
`spectrum.flux_density`). -/
structure Spectrum where
  wavelengths : List ℚ
  flux_density : List ℚ
  deriving DecidableEq

/-- `class Filter`: a response curve sampled on a wavelength grid, with an
optional name (`name=None` by default in `__init__`). -/
structure Filter where
  wavelengths : List ℚ
  response : List ℚ
  name : Option String
  deriving DecidableEq

/-- `class Colour`: `self.filters = [filter1, filter2]`. -/
structure Colour where
  filter1 : Filter
  filter2 : Filter
  deriving DecidableEq

/-- `astropy.constants.c`, the speed of light, SI numeric value. -/
def c : ℚ := 299792458

/-- `numpy.ndarray.min()` on the list of values (junk 0 on the empty array,
where numpy would raise). -/
def npMin : List ℚ → ℚ
  | [] => 0
  | a :: as => as.foldl min a

/-- `numpy.ndarray.max()` on the list of values (junk 0 on the empty array,
where numpy would raise). -/
def npMax : List ℚ → ℚ
  | [] => 0
  | a :: as => as.foldl max a

/-- numpy boolean-mask indexing `arr[select]`: keep the entries of the array
whose mask entry is `true`.  numpy requires the mask and the array to have
equal length; on a length mismatch (which raises in numpy) the model returns
the junk `[]`. -/
def applyMask : List Bool → List ℚ → List ℚ
  | true :: ms, a :: as => a :: applyMask ms as
  | false :: ms, _ :: as => applyMask ms as
  | _, _ => []

/-- Elementwise combination of three equal-length numpy arrays. -/
def zipWith3 (f : ℚ → ℚ → ℚ → ℚ) : List ℚ → List ℚ → List ℚ → List ℚ
  | a :: as, b :: bs, d :: ds => f a b d :: zipWith3 f as bs ds
  | _, _, _ => []

/-- `numpy.interp x xp fp`: one-dimensional piecewise-linear interpolation of
the sample points `(xp, fp)` evaluated at `x`, clamping to `fp.head` /
`fp.getLast` outside the grid.  `xp` is assumed sorted ascending (numpy's
own precondition).  Junk 0 on malformed (empty or length-mismatched)
sample arrays, where numpy would raise. -/
def np_interp (x : ℚ) : List ℚ → List ℚ → ℚ
  | x0 :: x1 :: xs, f0 :: f1 :: fs =>
      if x ≤ x0 then f0
      else if x ≤ x1 then f0 + (f1 - f0) * (x - x0) / (x1 - x0)
      else np_interp x (x1 :: xs) (f1 :: fs)
  | [_], [f0] => f0
  | _, _ => 0

/-- Model of the external integrator `scipy.integrate.simps` (imported in the
source as `simpsons_rule_integration`): composite Simpson quadrature of the
samples `y` over the unevenly spaced grid `x`.  Successive pairs of intervals
`(x0,x1,x2)` get the exact-for-quadratics three-point rule; a final unpaired
interval gets a trapezoid; fewer than two points integrate to 0 (scipy
returns 0.0 on one point and raises IndexError on zero points). -/
def simpsons_rule_integration : List ℚ → List ℚ → ℚ
  | y0 :: y1 :: y2 :: ys, x0 :: x1 :: x2 :: xs =>
      let h1 := x1 - x0
      let h2 := x2 - x1
      (h1 + h2) / 6 *
          (y0 * (2 - h2 / h1) + y1 * (h1 + h2) ^ 2 / (h1 * h2) + y2 * (2 - h1 / h2))
        + simpsons_rule_integration (y2 :: ys) (x2 :: xs)
  | [y0, y1], [x0, x1] => (x1 - x0) * (y0 + y1) / 2
  | _, _ => 0

/-- Line 33f: `select = spectrum.wavelengths > self.wavelengths.min()`
followed by `select &= spectrum.wavelengths < self.wavelengths.max()` —
the boolean mask of spectrum samples strictly inside the filter's
wavelength support. -/
def select (F : Filter) (s : Spectrum) : List Bool :=
  s.wavelengths.map fun w =>
    decide (npMin F.wavelengths < w) && decide (w < npMax F.wavelengths)

/-- Line 35: `flux_density = spectrum.flux_density[select]`. -/
def flux_density (F : Filter) (s : Spectrum) : List ℚ :=
  applyMask (select F s) s.flux_density

/-- Line 36: `wavelength = spectrum.wavelengths[select]`. -/
def wavelength (F : Filter) (s : Spectrum) : List ℚ :=
  applyMask (select F s) s.wavelengths

/-- Line 37: `frequency = c / wavelength` (elementwise). -/
def frequency (F : Filter) (s : Spectrum) : List ℚ :=
  (wavelength F s).map fun w => c / w

/-- Line 38: `interpolated_response = np.interp(wavelength.to(...), self.wavelengths,
self.response)`; the `.to(self.wavelengths.unit)` conversion between
compatible length units is the identity on the common-unit values. -/
def interpolated_response (F : Filter) (s : Spectrum) : List ℚ :=
  (wavelength F s).map fun w => np_interp w F.wavelengths F.response

/-- Line 40: `flux_density_jansky = (flux_density * wavelength / frequency).to(u.Jy)`
(elementwise); the `.to(u.Jy)` conversion of the already
frequency-flux-density-dimensioned product is the identity on the
common-unit values and fixes the unit tag `jansky` read back on line 42. -/
def flux_density_jansky (F : Filter) (s : Spectrum) : List ℚ :=
  zipWith3 (fun f w v => f * w / v) (flux_density F s) (wavelength F s) (frequency F s)

/-- Line 41: `top = simpsons_rule_integration(interpolated_response *
flux_density_jansky / wavelength, wavelength)`. -/
def top (F : Filter) (s : Spectrum) : ℚ :=
  simpsons_rule_integration
    (zipWith3 (fun r fj w => r * fj / w)
      (interpolated_response F s) (flux_density_jansky F s) (wavelength F s))
    (wavelength F s)

/-- Line 42 (first integral): `bottom = simpsons_rule_integration(
interpolated_response / wavelength, wavelength)`. -/
def bottom (F : Filter) (s : Spectrum) : ℚ :=
  simpsons_rule_integration
    (List.zipWith (fun r w => r / w) (interpolated_response F s) (wavelength F s))
    (wavelength F s)

/-- `Filter.propagate_flux_density`: returns
`top / bottom * flux_density_jansky.unit`, i.e. the scalar ratio of the two
Simpson integrals tagged with the jansky unit produced by the `.to(u.Jy)`
conversion on line 40. -/
def Filter.propagate_flux_density (F : Filter) (s : Spectrum) : Quantity :=
  ⟨top F s / bottom F s, PhysUnit.jansky⟩

/-- `Filter.__call__`: calling a filter propagates the spectrum. -/
def Filter.call (F : Filter) (s : Spectrum) : Quantity :=
  F.propagate_flux_density s

/-- The samples the propagation works on, as (wavelength, flux-density)
pairs: the two mask-selected arrays read in index correspondence. -/
def selected_samples (F : Filter) (s : Spectrum) : List (ℚ × ℚ) :=
  (wavelength F s).zip (flux_density F s)

/-- Result type of numpy floating-point scalar computations: either a real
number or one of the non-real IEEE-754 results (`nan`, `+inf`, `-inf`),
which `ℝ` cannot represent. -/
inductive NpReal
  | nan
  | pinf
  | ninf
  | val (x : ℝ)

/-- Multiplication of a numpy float by the finite constant `a`, with the
IEEE-754 rules for the non-real elements (`a * ±inf` keeps or flips the
infinity by the sign of `a` and is `nan` for `a = 0`; `a * nan = nan`). -/
noncomputable def NpReal.cmul (a : ℝ) : NpReal → NpReal
  | nan => nan
  | pinf => if 0 < a then pinf else if a < 0 then ninf else nan
  | ninf => if 0 < a then ninf else if a < 0 then pinf else nan
  | val x => val (a * x)

/-- Subtraction of a finite constant `b` from a numpy float (IEEE-754:
infinities and `nan` absorb the finite term). -/
noncomputable def NpReal.csub : NpReal → ℝ → NpReal
  | nan, _ => nan
  | pinf, _ => pinf
  | ninf, _ => ninf
  | val x, b => val (x - b)

/-- Subtraction of two numpy floats with the IEEE-754 rules for the
non-real elements (`nan` is absorbing; `inf - inf = nan`). -/
noncomputable def NpReal.sub : NpReal → NpReal → NpReal
  | nan, _ => nan
  | _, nan => nan
  | pinf, pinf => nan
  | pinf, ninf => pinf
  | pinf, val _ => pinf
  | ninf, pinf => ninf
  | ninf, ninf => nan
  | ninf, val _ => ninf
  | val _, pinf => ninf
  | val _, ninf => pinf
  | val x, val y => val (x - y)

/-- `numpy.log10` on a scalar: the real base-10 logarithm on positive
arguments, IEEE-754 `-inf` at zero and `nan` on negative arguments (numpy
emits a RuntimeWarning in the latter two cases but still returns). -/
noncomputable def np_log10 (x : ℝ) : NpReal :=
  if x < 0 then .nan else if x = 0 then .ninf else .val (Real.logb 10 x)

/-- `flux2ABMag(flux)`: `-2.5 * np.log10(flux.to(u.Jy).value) - 48.6`.
The `.to(u.Jy)` conversion of a jansky-convertible quantity is the identity
on the common-unit value. -/
noncomputable def flux2ABMag (flux : Quantity) : NpReal :=
  ((np_log10 ((flux.value : ℝ))).cmul (-2.5)).csub 48.6

/-- `Colour.__call__`: propagate the spectrum through both filters and
return the difference of their AB magnitudes. -/
noncomputable def Colour.call (col : Colour) (spectrum : Spectrum) : NpReal :=
  let flux1 := col.filter1.call spectrum
  let flux2 := col.filter2.call spectrum
  NpReal.sub (flux2ABMag flux1) (flux2ABMag flux2)

/-- Python's `str.format` rendering of an optional string: `None` renders as
the literal text `"None"`. -/
def pyStr : Option String → String
  | none => "None"
  | some s => s

/-- `Filter.__repr__`: `"<Filter name={}>".format(self.name)`. -/
def Filter.repr (F : Filter) : String :=
  "<Filter name=" ++ pyStr F.name ++ ">"

/-- `Colour.__repr__`: `"${} - {}$".format(self.filters[0].name, self.filters[1].name)`. -/
def Colour.repr (col : Colour) : String :=
  "$" ++ pyStr col.filter1.name ++ " - " ++ pyStr col.filter2.name ++ "$"

/-- The propagation pipeline exactly as the specification words it: select
the (wavelength, flux-density) sample pairs strictly inside
`(min filterWavelengths, max filterWavelengths)` preserving order,
interpolate the response onto the selected wavelengths, convert each sample
to a per-frequency flux density as `flux_density * wavelength / frequency`
with `frequency = c / wavelength`, integrate `response * fluxNu / wavelength`
and `response / wavelength` with the Simpson-family integrator over the
selected grid, and attach the jansky unit of the converted per-sample
quantity to the ratio. -/
def propagate_spec (F : Filter) (s : Spectrum) : Quantity :=
  let inside := (s.wavelengths.zip s.flux_density).filter fun q =>
    decide (npMin F.wavelengths < q.1) && decide (q.1 < npMax F.wavelengths)
  let wl := inside.map Prod.fst
  let fd := inside.map Prod.snd
  let iresp := wl.map fun w => np_interp w F.wavelengths F.response
  let fnu := List.zipWith (fun f w => f * w / (c / w)) fd wl
  let num := simpsons_rule_integration (zipWith3 (fun r f w => r * f / w) iresp fnu wl) wl
  let den := simpsons_rule_integration (List.zipWith (fun r w => r / w) iresp wl) wl
  ⟨num / den, PhysUnit.jansky⟩

/-- Concrete filter used by the closed-instance theorems: support `[1, 2, 3]`,
flat unit response, no name. -/
def F0 : Filter := ⟨[1, 2, 3], [1, 1, 1], none⟩

/-- Concrete second filter: same support, response scaled to 2, named. -/
def G0 : Filter := ⟨[1, 2, 3], [2, 2, 2], some "g"⟩

/-- Concrete spectrum with three samples strictly inside `F0`'s support. -/
def s0 : Spectrum := ⟨[3/2, 2, 5/2], [1, 1, 1]⟩

/-- Concrete spectrum with exactly one sample strictly inside `F0`'s
support (the samples at `1` and `3` sit exactly on the endpoints). -/
def s1 : Spectrum := ⟨[1, 2, 3], [1, 1, 1]⟩

/-- Concrete spectrum: `s0` with extra samples outside `F0`'s support and
one sample exactly at each endpoint. -/
def s2 : Spectrum := ⟨[1/2, 1, 3/2, 2, 5/2, 3, 7], [99, 55, 1, 1, 1, 44, 77]⟩

/-! ## Helper lemmas -/

/-- Masking an array by a pointwise predicate of itself is filtering. -/
theorem applyMask_map_self (p : ℚ → Bool) : ∀ l : List ℚ, applyMask (l.map p) l = l.filter p
  | [] => rfl
  | a :: l => by
      cases h : p a <;>
        simp [applyMask, h, applyMask_map_self p l, List.filter_cons]

/-- Masking a parallel equal-length array by a pointwise predicate of the
first array keeps the second components of the filtered pairs. -/
theorem applyMask_map_snd (p : ℚ → Bool) : ∀ (as bs : List ℚ),
    as.length = bs.length →
    applyMask (as.map p) bs = ((as.zip bs).filter fun q => p q.1).map Prod.snd
  | [], [] => fun _ => rfl
  | [], _ :: _ => by intro h; simp at h
  | _ :: _, [] => by intro h; simp at h
  | a :: as, b :: bs => by
      intro h
      simp only [List.length_cons, Nat.add_right_cancel_iff] at h
      cases hp : p a <;>
        simp [applyMask, hp, List.filter_cons, applyMask_map_snd p as bs h]

/-- The two mask-selected parallel arrays, zipped, are the filtered zip. -/
theorem zip_applyMask (p : ℚ → Bool) : ∀ (as bs : List ℚ),
    as.length = bs.length →
    (applyMask (as.map p) as).zip (applyMask (as.map p) bs)
      = (as.zip bs).filter fun q => p q.1
  | [], [] => fun _ => rfl
  | [], _ :: _ => by intro h; simp at h
  | _ :: _, [] => by intro h; simp at h
  | a :: as, b :: bs => by
      intro h
      simp only [List.length_cons, Nat.add_right_cancel_iff] at h
      cases hp : p a <;>
        simp [applyMask, hp, List.filter_cons, zip_applyMask p as bs h]

/-- Filtering an array is the first components of the filtered zip with any
parallel equal-length array. -/
theorem filter_eq_map_fst (p : ℚ → Bool) : ∀ (as bs : List ℚ),
    as.length = bs.length →
    as.filter p = ((as.zip bs).filter fun q => p q.1).map Prod.fst
  | [], [] => fun _ => rfl
  | [], _ :: _ => by intro h; simp at h
  | _ :: _, [] => by intro h; simp at h
  | a :: as, b :: bs => by
      intro h
      simp only [List.length_cons, Nat.add_right_cancel_iff] at h
      cases hp : p a <;>
        simp [List.filter_cons, hp, filter_eq_map_fst p as bs h]

/-- The integrator applied over fewer than two grid points is 0. -/
theorem simps_short (y x : List ℚ) (h : x.length ≤ 1) :
    simpsons_rule_integration y x = 0 := by
  rcases x with _ | ⟨u, _ | ⟨v, x⟩⟩
  · rcases y with _ | ⟨a, _ | ⟨b, _ | ⟨e, t⟩⟩⟩ <;> rfl
  · rcases y with _ | ⟨a, _ | ⟨b, _ | ⟨e, t⟩⟩⟩ <;> rfl
  · simp at h

/-- The composite Simpson integrator is homogeneous in the integrand. -/
theorem simps_smul (k : ℚ) (y x : List ℚ) :
    simpsons_rule_integration (y.map fun v => k * v) x
      = k * simpsons_rule_integration y x := by
  induction y, x using simpsons_rule_integration.induct with
  | case1 y0 y1 y2 ys x0 x1 x2 xs ih =>
      simp only [List.map_cons] at ih ⊢
      simp only [simpsons_rule_integration]
      rw [ih]
      ring
  | case2 y0 y1 x0 x1 =>
      simp only [List.map_cons, List.map_nil, simpsons_rule_integration]
      ring
  | case3 t x h1 h2 =>
      rcases t with _ | ⟨a, _ | ⟨b, _ | ⟨e, t⟩⟩⟩ <;>
        rcases x with _ | ⟨u, _ | ⟨v, _ | ⟨w, x⟩⟩⟩ <;>
        first
          | exact (h1 _ _ _ _ _ _ _ _ rfl rfl).elim
          | exact (h2 _ _ _ _ rfl rfl).elim
          | simp [simpsons_rule_integration]

/-- Linear interpolation is homogeneous in the interpolated values. -/
theorem np_interp_smul (k x : ℚ) (xs fs : List ℚ) :
    np_interp x xs (fs.map fun v => k * v) = k * np_interp x xs fs := by
  induction xs, fs using np_interp.induct x with
  | case1 x0 x1 xs f0 f1 fs h =>
      simp only [List.map_cons, np_interp, if_pos h]
  | case2 x0 x1 xs f0 f1 fs h h2 =>
      simp only [List.map_cons, np_interp, if_neg h, if_pos h2]
      ring
  | case3 x0 x1 xs f0 f1 fs h h2 ih =>
      simp only [List.map_cons] at ih ⊢
      simp only [np_interp, if_neg h, if_neg h2]
      exact ih
  | case4 x0 f0 => simp [np_interp]
  | case5 t u h1 h2 =>
      rcases t with _ | ⟨a, _ | ⟨b, t⟩⟩ <;>
        rcases u with _ | ⟨d, _ | ⟨e, u⟩⟩ <;>
        first
          | exact (h1 _ _ _ _ _ _ rfl rfl).elim
          | exact (h2 _ _ rfl rfl).elim
          | simp [np_interp]

/-- The elementwise conversion to per-frequency flux density, with the
frequency array expanded as `c / wavelength`. -/
theorem zipWith3_div_map (fd : List ℚ) : ∀ wl : List ℚ,
    zipWith3 (fun f w v => f * w / v) fd wl (wl.map fun w => c / w)
      = List.zipWith (fun f w => f * w / (c / w)) fd wl := by
  induction fd with
  | nil => intro wl; cases wl <;> rfl
  | cons a as ih =>
      intro wl
      cases wl with
      | nil => rfl
      | cons b bs => simp [zipWith3, ih bs]

/-- Scaling the first array of the numerator integrand scales the integrand. -/
theorem zipWith3_smul_first (k : ℚ) : ∀ (l b d : List ℚ),
    zipWith3 (fun r f w => r * f / w) (l.map fun v => k * v) b d
      = (zipWith3 (fun r f w => r * f / w) l b d).map fun v => k * v
  | [], b, d => by cases b <;> cases d <;> rfl
  | a :: l, [], d => by cases d <;> rfl
  | a :: l, b :: bs, [] => rfl
  | a :: l, b :: bs, e :: ds => by
      simp only [List.map_cons, zipWith3, zipWith3_smul_first k l bs ds,
        List.map_cons]
      congr 1
      ring

/-- Scaling the first array of the denominator integrand scales the
integrand. -/
theorem zipWith_smul_first (k : ℚ) : ∀ (l d : List ℚ),
    List.zipWith (fun r w => r / w) (l.map fun v => k * v) d
      = (List.zipWith (fun r w => r / w) l d).map fun v => k * v
  | [], d => by cases d <;> rfl
  | a :: l, [] => rfl
  | a :: l, e :: ds => by
      simp only [List.map_cons, List.zipWith_cons_cons, zipWith_smul_first k l ds]
      congr 1
      ring

/-! ## Claim theorems -/

/-- C4: `propagate` selects exactly those spectrum samples whose wavelength
lies strictly between `min F.wavelengths` and `max F.wavelengths` — both
endpoints excluded, compared with strict inequalities — preserving the
samples' original order; samples at exactly the endpoint wavelengths are
excluded. -/
theorem C4_selection_strictly_inside (F : Filter) (s : Spectrum)
    (h : s.wavelengths.length = s.flux_density.length) :
    selected_samples F s
        = (s.wavelengths.zip s.flux_density).filter
            (fun q => decide (npMin F.wavelengths < q.1)
              && decide (q.1 < npMax F.wavelengths))
      ∧ (selected_samples F s).Sublist (s.wavelengths.zip s.flux_density)
      ∧ (∀ q, q ∈ selected_samples F s ↔
          q ∈ s.wavelengths.zip s.flux_density
            ∧ npMin F.wavelengths < q.1 ∧ q.1 < npMax F.wavelengths)
      ∧ (∀ q ∈ selected_samples F s,
          q.1 ≠ npMin F.wavelengths ∧ q.1 ≠ npMax F.wavelengths) := by
  have hsel : selected_samples F s
      = (s.wavelengths.zip s.flux_density).filter
          (fun q => decide (npMin F.wavelengths < q.1)
            && decide (q.1 < npMax F.wavelengths)) := by
    unfold selected_samples wavelength flux_density select
    exact zip_applyMask _ _ _ h
  have hmem : ∀ q, q ∈ selected_samples F s ↔
      q ∈ s.wavelengths.zip s.flux_density
        ∧ npMin F.wavelengths < q.1 ∧ q.1 < npMax F.wavelengths := by
    intro q
    rw [hsel, List.mem_filter]
    simp
  refine ⟨hsel, ?_, hmem, ?_⟩
  · rw [hsel]; exact List.filter_sublist _
  · intro q hq
    obtain ⟨-, hlt, hgt⟩ := (hmem q).1 hq
    exact ⟨ne_of_gt hlt, ne_of_lt hgt⟩

/-- C4 witnessed on a concrete filter and a spectrum containing samples
outside the support and at both exact endpoints. -/
theorem C4_selection_strictly_inside_witness :
    s2.wavelengths.length = s2.flux_density.length
      ∧ selected_samples F0 s2
          = (s2.wavelengths.zip s2.flux_density).filter
              (fun q => decide (npMin F0.wavelengths < q.1)
                && decide (q.1 < npMax F0.wavelengths))
      ∧ selected_samples F0 s2 = [(3/2, 1), (2, 1), (5/2, 1)] :=
  ⟨rfl, (C4_selection_strictly_inside F0 s2 rfl).1, by
    norm_num [selected_samples, wavelength, flux_density, select, F0, s2,
      npMin, npMax, applyMask]⟩

/-- C10: flux-density values outside the filter's support never influence
`propagate`: two spectra whose sample sequences strictly inside the support
coincide propagate identically through the filter. -/
theorem C10_noninterference (F : Filter) (sa sb : Spectrum)
    (hw : wavelength F sa = wavelength F sb)
    (hf : flux_density F sa = flux_density F sb) :
    F.propagate_flux_density sa = F.propagate_flux_density sb := by
  simp only [Filter.propagate_flux_density, top, bottom, interpolated_response,
    flux_density_jansky, frequency, hw, hf]

/-- C10 witnessed on two concrete spectra that agree strictly inside `F0`'s
support but differ outside it (extra samples, including samples exactly at
the endpoints, with wildly different flux values). -/
theorem C10_noninterference_witness :
    wavelength F0 s0 = wavelength F0 s2
      ∧ flux_density F0 s0 = flux_density F0 s2
      ∧ s0 ≠ s2
      ∧ Filter.propagate_flux_density F0 s0 = Filter.propagate_flux_density F0 s2 := by
  have hw : wavelength F0 s0 = wavelength F0 s2 := by
    norm_num [wavelength, select, F0, s0, s2, npMin, npMax, applyMask]
  have hf : flux_density F0 s0 = flux_density F0 s2 := by
    norm_num [flux_density, select, F0, s0, s2, npMin, npMax, applyMask]
  exact ⟨hw, hf, by simp [s0, s2], C10_noninterference F0 s0 s2 hw hf⟩

/-- C2 (amended): with fewer than two spectrum samples strictly inside the
filter's support, `propagate` does not raise any error — the program defines
no `EmptyOverlapError` — and instead both Simpson integrals evaluate to 0 and
the method still returns a jansky-tagged quantity (the floating-point
program forms the indeterminate ratio `0.0 / 0.0`, i.e. NaN, there). -/
theorem C2_fewer_than_two_samples_amended (F : Filter) (s : Spectrum)
    (h : (wavelength F s).length < 2) :
    top F s = 0 ∧ bottom F s = 0
      ∧ (F.propagate_flux_density s).unit = PhysUnit.jansky := by
  have h1 : (wavelength F s).length ≤ 1 := Nat.lt_succ_iff.mp h
  exact ⟨simps_short _ _ h1, simps_short _ _ h1, rfl⟩

/-- C2 witnessed at a concrete one-sample overlap. -/
theorem C2_fewer_than_two_samples_amended_witness :
    (wavelength F0 s1).length < 2
      ∧ (top F0 s1 = 0 ∧ bottom F0 s1 = 0
          ∧ (Filter.propagate_flux_density F0 s1).unit = PhysUnit.jansky) := by
  have h : (wavelength F0 s1).length < 2 := by
    norm_num [wavelength, select, F0, s1, npMin, npMax, applyMask]
  exact ⟨h, C2_fewer_than_two_samples_amended F0 s1 h⟩

/-- C2 counterexample: a spectrum with exactly one sample strictly inside
the filter's support (fewer than 2), on which `propagate` does not fail with
an `EmptyOverlapError` — no such error exists in the program — but runs the
integrator on the one-point arrays (both integrals are exactly 0, also in
the floating-point program) and still returns a jansky-tagged quantity
(`0.0 / 0.0 * Jy`, a NaN-valued quantity, at runtime). -/
theorem C2_empty_overlap_counterexample :
    (wavelength F0 s1).length = 1
      ∧ top F0 s1 = 0
      ∧ bottom F0 s1 = 0
      ∧ (Filter.propagate_flux_density F0 s1).unit = PhysUnit.jansky := by
  refine ⟨?_, ?_, ?_, rfl⟩ <;>
    norm_num [top, bottom, wavelength, flux_density, flux_density_jansky,
      frequency, interpolated_response, select, F0, s1, npMin, npMax,
      applyMask, zipWith3, np_interp, simpsons_rule_integration]

/-- C6: scaling every response value of a filter by the same positive
constant `k` leaves `propagate`'s result unchanged — the ratio of the two
integrals cancels the rescaling. -/
theorem C6_normalization_invariance (k : ℚ) (hk : 0 < k) (F : Filter) (s : Spectrum) :
    Filter.propagate_flux_density ⟨F.wavelengths, F.response.map fun r => k * r, F.name⟩ s
      = F.propagate_flux_density s := by
  set Fk : Filter := ⟨F.wavelengths, F.response.map fun r => k * r, F.name⟩ with hFk
  have hwl : wavelength Fk s = wavelength F s := rfl
  have hfd : flux_density Fk s = flux_density F s := rfl
  have hfj : flux_density_jansky Fk s = flux_density_jansky F s := rfl
  have hir : interpolated_response Fk s
      = (interpolated_response F s).map fun v => k * v := by
    unfold interpolated_response
    rw [hwl, List.map_map]
    refine List.map_congr_left fun w _ => ?_
    exact np_interp_smul k w F.wavelengths F.response
  have htop : top Fk s = k * top F s := by
    unfold top
    rw [hwl, hfj, hir, zipWith3_smul_first, simps_smul]
  have hbot : bottom Fk s = k * bottom F s := by
    unfold bottom
    rw [hwl, hir, zipWith_smul_first, simps_smul]
  unfold Filter.propagate_flux_density
  rw [htop, hbot, mul_div_mul_left _ _ (ne_of_gt hk)]

/-- C6 witnessed at a concrete positive scale factor and filter/spectrum. -/
theorem C6_normalization_invariance_witness :
    (0 : ℚ) < 2
      ∧ Filter.propagate_flux_density ⟨F0.wavelengths, F0.response.map fun r => 2 * r, F0.name⟩ s0
          = Filter.propagate_flux_density F0 s0 :=
  ⟨by norm_num, C6_normalization_invariance 2 (by norm_num) F0 s0⟩

/-- C1: on a well-formed spectrum (parallel arrays of equal length; in the
common-unit model every sample is convertible to the filter's units),
`propagate` returns the ratio of the two Simpson integrals over the
strictly-selected wavelength grid — numerator integrating
`interpolatedResponse * frequencyFluxDensity / wavelength` with
`frequencyFluxDensity = flux_density * wavelength / frequency` and
`frequency = c / wavelength`, denominator integrating
`interpolatedResponse / wavelength` — tagged with the jansky unit of the
converted per-sample quantity. -/
theorem C1_propagation_is_ratio_of_simpson_integrals (F : Filter) (s : Spectrum)
    (h : s.wavelengths.length = s.flux_density.length) :
    F.propagate_flux_density s = propagate_spec F s
      ∧ (F.propagate_flux_density s).unit = PhysUnit.jansky := by
  refine ⟨?_, rfl⟩
  have hw : wavelength F s
      = ((s.wavelengths.zip s.flux_density).filter fun q =>
          decide (npMin F.wavelengths < q.1)
            && decide (q.1 < npMax F.wavelengths)).map Prod.fst := by
    unfold wavelength select
    rw [applyMask_map_self]
    exact filter_eq_map_fst _ _ _ h
  have hf : flux_density F s
      = ((s.wavelengths.zip s.flux_density).filter fun q =>
          decide (npMin F.wavelengths < q.1)
            && decide (q.1 < npMax F.wavelengths)).map Prod.snd := by
    unfold flux_density select
    exact applyMask_map_snd _ _ _ h
  have hj : flux_density_jansky F s
      = List.zipWith (fun f w => f * w / (c / w)) (flux_density F s) (wavelength F s) := by
    unfold flux_density_jansky frequency
    exact zipWith3_div_map _ _
  simp only [Filter.propagate_flux_density, top, bottom, interpolated_response,
    propagate_spec]
  rw [hj, hw, hf]

/-- C1 witnessed at a concrete filter and spectrum, with both the code
pipeline and the spec pipeline evaluating to the same concrete quantity. -/
theorem C1_propagation_is_ratio_of_simpson_integrals_witness :
    s0.wavelengths.length = s0.flux_density.length
      ∧ Filter.propagate_flux_density F0 s0 = propagate_spec F0 s0
      ∧ propagate_spec F0 s0 = ⟨45 / 3447613267, PhysUnit.jansky⟩ :=
  ⟨rfl, (C1_propagation_is_ratio_of_simpson_integrals F0 s0 rfl).1, by
    norm_num [propagate_spec, F0, s0, npMin, npMax, zipWith3, np_interp,
      simpsons_rule_integration, c]⟩

/-- Shared evaluation of the magnitude converter on a positive flux: the
converter follows the straight-line formula on the `val` branch. -/
theorem flux2ABMag_of_pos (q : Quantity) (h : 0 < q.value) :
    flux2ABMag q = NpReal.val (-2.5 * Real.logb 10 ((q.value : ℝ)) - 48.6) := by
  have h' : (0 : ℝ) < ((q.value : ℝ)) := by exact_mod_cast h
  unfold flux2ABMag np_log10
  rw [if_neg (not_lt.mpr h'.le), if_neg h'.ne']
  rfl

/-- C5: on any flux-density quantity whose converted jansky value is
positive, `flux2ABMag` returns exactly `-2.5 * log10 value - 48.6`. -/
theorem C5_ab_magnitude_formula (q : Quantity) (h : 0 < q.value) :
    flux2ABMag q = NpReal.val (-2.5 * Real.logb 10 ((q.value : ℝ)) - 48.6) :=
  flux2ABMag_of_pos q h

/-- C5 witnessed at the concrete unit flux. -/
theorem C5_ab_magnitude_formula_witness :
    (0 : ℚ) < 1
      ∧ flux2ABMag ⟨1, PhysUnit.jansky⟩
          = NpReal.val (-2.5 * Real.logb 10 (((1 : ℚ) : ℝ)) - 48.6) :=
  ⟨by norm_num, C5_ab_magnitude_formula ⟨1, PhysUnit.jansky⟩ (by norm_num)⟩

/-- C3 (amended): on a non-positive converted flux value the magnitude
converter does not fail with any `DomainError` — the program defines no such
error and has no branch — but evaluates the formula anyway, returning the
non-real IEEE-754 float it produces: NaN for a negative value (from
`np.log10` of a negative number) and `+inf` for a zero value (from
`-2.5 * (-inf)`). -/
theorem C3_nonpositive_flux_amended (q : Quantity) (h : q.value ≤ 0) :
    flux2ABMag q = if q.value < 0 then NpReal.nan else NpReal.pinf := by
  rcases lt_or_eq_of_le h with h1 | h1
  · have h' : ((q.value : ℝ)) < 0 := by exact_mod_cast h1
    rw [if_pos h1]
    unfold flux2ABMag np_log10
    rw [if_pos h']
    rfl
  · have h' : ((q.value : ℝ)) = 0 := by exact_mod_cast h1
    rw [if_neg (by rw [h1]; exact lt_irrefl 0)]
    unfold flux2ABMag np_log10
    rw [if_neg (not_lt.mpr h'.ge), if_pos h']
    norm_num [NpReal.cmul, NpReal.csub]

/-- C3 witnessed at a concrete negative flux value. -/
theorem C3_nonpositive_flux_amended_witness :
    (-1 : ℚ) ≤ 0
      ∧ flux2ABMag ⟨-1, PhysUnit.jansky⟩
          = (if (-1 : ℚ) < 0 then NpReal.nan else NpReal.pinf) :=
  ⟨by norm_num, C3_nonpositive_flux_amended ⟨-1, PhysUnit.jansky⟩ (by norm_num)⟩

/-- C3 counterexample: at the concrete non-positive fluxes `-1 Jy` and
`0 Jy` the conversion completes and returns an IEEE-754 float (NaN
respectively `+inf`) instead of failing: no `DomainError` (or any raise
statement) exists in the program. -/
theorem C3_domain_error_counterexample :
    flux2ABMag ⟨-1, PhysUnit.jansky⟩ = NpReal.nan
      ∧ flux2ABMag ⟨0, PhysUnit.jansky⟩ = NpReal.pinf := by
  constructor
  · unfold flux2ABMag np_log10
    rw [if_pos (by norm_num : (((-1 : ℚ) : ℝ)) < 0)]
    rfl
  · unfold flux2ABMag np_log10
    rw [if_neg (by norm_num), if_pos (by norm_num)]
    norm_num [NpReal.cmul, NpReal.csub]

/-- C8: the AB magnitude scale is strictly decreasing in the flux: for two
positive flux densities in the same (jansky-convertible) unit with
`f2 < f1`, the magnitude of `f1` is strictly below that of `f2`. -/
theorem C8_magnitude_monotonicity (q1 q2 : Quantity) (_hu : q1.unit = q2.unit)
    (hpos : 0 < q2.value) (hlt : q2.value < q1.value) :
    ∃ m1 m2 : ℝ, flux2ABMag q1 = NpReal.val m1 ∧ flux2ABMag q2 = NpReal.val m2
      ∧ m1 < m2 := by
  have h1 : 0 < q1.value := hpos.trans hlt
  refine ⟨_, _, flux2ABMag_of_pos q1 h1, flux2ABMag_of_pos q2 hpos, ?_⟩
  have hb : Real.logb 10 ((q2.value : ℝ)) < Real.logb 10 ((q1.value : ℝ)) :=
    Real.logb_lt_logb (by norm_num) (by exact_mod_cast hpos) (by exact_mod_cast hlt)
  linarith

/-- C8 witnessed at the concrete fluxes `10 Jy` and `1 Jy`. -/
theorem C8_magnitude_monotonicity_witness :
    (0 : ℚ) < 1 ∧ (1 : ℚ) < 10
      ∧ ∃ m1 m2 : ℝ, flux2ABMag ⟨10, PhysUnit.jansky⟩ = NpReal.val m1
          ∧ flux2ABMag ⟨1, PhysUnit.jansky⟩ = NpReal.val m2 ∧ m1 < m2 :=
  ⟨by norm_num, by norm_num,
    C8_magnitude_monotonicity ⟨10, PhysUnit.jansky⟩ ⟨1, PhysUnit.jansky⟩ rfl
      (by norm_num) (by norm_num)⟩

/-- C7: whenever both propagations convert to finite magnitudes, a `Colour`
evaluates to the difference of the two AB magnitudes (first minus second),
and consequently swapping the filters negates the result. -/
theorem C7_colour_antisymmetry (A B : Filter) (sp : Spectrum) (mA mB : ℝ)
    (hA : flux2ABMag (A.propagate_flux_density sp) = NpReal.val mA)
    (hB : flux2ABMag (B.propagate_flux_density sp) = NpReal.val mB) :
    Colour.call ⟨A, B⟩ sp = NpReal.val (mA - mB)
      ∧ Colour.call ⟨B, A⟩ sp = NpReal.val (mB - mA)
      ∧ mA - mB = -(mB - mA) := by
  refine ⟨?_, ?_, by ring⟩
  · simp only [Colour.call, Filter.call]
    rw [hA, hB]
    rfl
  · simp only [Colour.call, Filter.call]
    rw [hA, hB]
    rfl

/-- C7 witnessed at concrete filters and spectrum on which both
propagations succeed with positive flux. -/
theorem C7_colour_antisymmetry_witness :
    ∃ mA mB : ℝ,
      flux2ABMag (Filter.propagate_flux_density F0 s0) = NpReal.val mA
        ∧ flux2ABMag (Filter.propagate_flux_density G0 s0) = NpReal.val mB
        ∧ Colour.call ⟨F0, G0⟩ s0 = NpReal.val (mA - mB)
        ∧ Colour.call ⟨G0, F0⟩ s0 = NpReal.val (mB - mA) := by
  have hPF : Filter.propagate_flux_density F0 s0 = ⟨45 / 3447613267, PhysUnit.jansky⟩ := by
    norm_num [Filter.propagate_flux_density, top, bottom, wavelength, flux_density,
      flux_density_jansky, frequency, interpolated_response, select, F0, s0,
      npMin, npMax, applyMask, zipWith3, np_interp, simpsons_rule_integration, c]
  have hPG : Filter.propagate_flux_density G0 s0 = ⟨45 / 3447613267, PhysUnit.jansky⟩ := by
    norm_num [Filter.propagate_flux_density, top, bottom, wavelength, flux_density,
      flux_density_jansky, frequency, interpolated_response, select, G0, s0,
      npMin, npMax, applyMask, zipWith3, np_interp, simpsons_rule_integration, c]
  have hA : flux2ABMag (Filter.propagate_flux_density F0 s0)
      = NpReal.val (-2.5 * Real.logb 10 ((((45 / 3447613267 : ℚ)) : ℝ)) - 48.6) := by
    rw [hPF]; exact flux2ABMag_of_pos _ (by norm_num)
  have hB : flux2ABMag (Filter.propagate_flux_density G0 s0)
      = NpReal.val (-2.5 * Real.logb 10 ((((45 / 3447613267 : ℚ)) : ℝ)) - 48.6) := by
    rw [hPG]; exact flux2ABMag_of_pos _ (by norm_num)
  exact ⟨_, _, hA, hB, (C7_colour_antisymmetry F0 G0 s0 _ _ hA hB).1,
    (C7_colour_antisymmetry F0 G0 s0 _ _ hA hB).2.1⟩

/-- C9 (amended): a `Filter` without a name renders as
`<Filter name=None>` — Python's `format` interpolates `None` literally —
and a `Colour` over nameless filters renders as `$None - None$`; no
"unnamed" placeholder appears anywhere. -/
theorem C9_repr_renders_none_amended (F G : Filter)
    (hF : F.name = none) (hG : G.name = none) :
    Filter.repr F = "<Filter name=None>"
      ∧ Colour.repr ⟨F, G⟩ = "$None - None$" := by
  simp only [Filter.repr, Colour.repr, hF, hG]
  exact ⟨rfl, rfl⟩

/-- C9 amended witnessed at a concrete nameless filter. -/
theorem C9_repr_renders_none_amended_witness :
    F0.name = none
      ∧ Filter.repr F0 = "<Filter name=None>"
      ∧ Colour.repr ⟨F0, F0⟩ = "$None - None$" :=
  ⟨rfl, (C9_repr_renders_none_amended F0 F0 rfl rfl).1,
    (C9_repr_renders_none_amended F0 F0 rfl rfl).2⟩

/-- C9 counterexample: the display strings of a nameless concrete filter
and of a colour over it contain no "unnamed" marker — they interpolate the
null value as the literal text `None`. -/
theorem C9_unnamed_counterexample :
    F0.name = none
      ∧ Filter.repr F0 = "<Filter name=None>"
      ∧ ¬ ("unnamed".toList <:+: (Filter.repr F0).toList)
      ∧ Colour.repr ⟨F0, F0⟩ = "$None - None$"
      ∧ ¬ ("unnamed".toList <:+: (Colour.repr ⟨F0, F0⟩).toList) := by
  refine ⟨rfl, by decide, by decide, by decide, by decide⟩

end Photometry
